import Mathlib

/-!
Verification of the multi-model retrieval, ranking and evaluation core of the
DM-CLIR repository.  Scores are modelled as exact rationals (the code uses
floating point, but every claim here is about the shape of the arithmetic, not
rounding), except for nDCG and the evaluator aggregates, which involve log2 and
are modelled over the reals.  Each retriever receives the per-document score
list produced by the underlying library (rank-bm25, fuzzywuzzy, scikit-learn,
sentence-transformers) as an explicit argument, since computing those scores is
the library's job; everything downstream of the score vector is translated
faithfully from src/src, including the argsort-select-reverse top-k pipeline,
the normalisation formulas, the ranker dispatch, weighted fusion, confidence
flagging, the metric functions and the evaluator.  numpy argsort is modelled as
a stable ascending sort of indices; no claim below depends on the order of
equal-score ties.
-/

/-- The empty string, used as a list default to mirror dict-style access. -/
def emptyStr : String := ""

/-- Association-list lookup, modelling Python dict access with insertion order.
Dicts in the source never carry duplicate keys. -/
def lookupA {β : Type} : String → List (String × β) → Option β
  | _, [] => none
  | k, (a, b) :: t => if k = a then some b else lookupA k t

namespace Retrieval

/-- One entry of the list returned by a retriever's search: the document index
into the collection, the document (modelled by its identifier string), the
normalized score, the raw library score and the 1-based rank.  For TF-IDF the
source stores only the cosine score, so there raw_score simply repeats score;
for Semantic, raw_score holds the cosine value (the source calls the key
cosine_score). -/
structure SearchResult where
  idx : ℕ
  doc : String
  score : ℚ
  raw_score : ℚ
  rank : ℕ
  deriving DecidableEq

/-- Model of numpy argsort over the score vector: the indices 0..n-1 sorted by
ascending score (stable; numpy's tie order is implementation defined and no
claim depends on it). -/
def rankOrder (scores : List ℚ) : List ℕ :=
  (List.range scores.length).insertionSort
    (fun i j => scores.getD i 0 ≤ scores.getD j 0)

/-- Model of np.argsort(scores)[-top_k:][::-1].  Note the Python edge case:
for top_k = 0 the slice [-0:] is the whole array, so every document is kept. -/
def topIdx (scores : List ℚ) (top_k : ℕ) : List ℕ :=
  (rankOrder scores).reverse.take (if top_k = 0 then scores.length else top_k)

/-- Shared body of the four search loops: walk the selected indices, attach
documents, normalize each raw score with the model-specific map f, and number
ranks starting from 1. -/
def rankedFrom (docs : List String) (scores : List ℚ) (top_k : ℕ)
    (f : ℚ → ℚ) : List SearchResult :=
  (topIdx scores top_k).enum.map fun p =>
    ⟨p.2, docs.getD p.2 emptyStr, f (scores.getD p.2 0), scores.getD p.2 0, p.1 + 1⟩

end Retrieval

namespace BM25Retriever

open Retrieval

/-- max(scores[top_indices[0]], 1.0) if len(top_indices) > 0 else 1.0. -/
def maxScore (scores : List ℚ) (top_k : ℕ) : ℚ :=
  match topIdx scores top_k with
  | [] => 1
  | i :: _ => max (scores.getD i 0) 1

/-- BM25Retriever.search: scores come from BM25Okapi.get_scores; every score is
divided by max(top raw score, 1.0). -/
def search (docs : List String) (scores : List ℚ) (top_k : ℕ) : List SearchResult :=
  rankedFrom docs scores top_k (fun s => s / maxScore scores top_k)

end BM25Retriever

namespace FuzzyRetriever

open Retrieval

/-- FuzzyRetriever.search: scores are fuzz.partial_ratio values on the 0..100
scale; each is divided by 100 for the score field while raw_score keeps the
0..100 value. -/
def search (docs : List String) (scores : List ℚ) (top_k : ℕ) : List SearchResult :=
  rankedFrom docs scores top_k (fun s => s / 100)

end FuzzyRetriever

namespace TFIDFRetriever

open Retrieval

/-- TFIDFRetriever.search: scores are cosine similarities, stored unchanged
(the source result dict has no separate raw_score key). -/
def search (docs : List String) (scores : List ℚ) (top_k : ℕ) : List SearchResult :=
  rankedFrom docs scores top_k (fun s => s)

end TFIDFRetriever

namespace SemanticRetriever

open Retrieval

/-- SemanticRetriever.search: scores are cosine similarities in [-1, 1]; each
is remapped by (cosine + 1) / 2, raw_score keeping the cosine value. -/
def search (docs : List String) (scores : List ℚ) (top_k : ℕ) : List SearchResult :=
  rankedFrom docs scores top_k (fun s => (s + 1) / 2)

end SemanticRetriever

namespace DocumentRanker

/-- One input to DocumentRanker.rank_documents: a result dict from a retrieval
model.  The score and raw_score keys may each be absent (TF-IDF results, for
instance, carry no raw_score), which the source handles with dict.get
fallbacks; absence is modelled by Option. -/
structure RInput where
  doc : String
  score : Option ℚ
  raw_score : Option ℚ
  deriving DecidableEq

/-- One output entry of rank_documents. -/
structure ROutput where
  rank : ℕ
  doc : String
  score : ℚ
  raw_score : ℚ
  model : String
  deriving DecidableEq

/-- The dict returned by rank_documents. -/
structure RankedResults where
  model : String
  top_k : ℕ
  results : List ROutput
  deriving DecidableEq

/-- DocumentRanker._normalize_max: divide by the maximum, all zeros if the
maximum is 0, empty for empty input. -/
def normalize_max : List ℚ → List ℚ
  | [] => []
  | a :: t =>
    let m := t.foldl max a
    if m = 0 then List.replicate (a :: t).length 0
    else (a :: t).map fun s => s / m

/-- DocumentRanker._normalize_fuzzy: divide every score by 100. -/
def normalize_fuzzy (scores : List ℚ) : List ℚ :=
  scores.map fun s => s / 100

/-- DocumentRanker.rank_documents.  The dispatch table sends BM25 and TF-IDF to
max-normalization, Fuzzy to divide-by-100, and Semantic to the identity; any
other model name also falls through to the identity default. -/
def rank_documents (results : List RInput) (model_name : String) (top_k : ℕ) :
    RankedResults :=
  if results.isEmpty then ⟨model_name, top_k, []⟩
  else
    let scores := results.map fun r => r.score.getD (r.raw_score.getD 0)
    let raw_scores := results.map fun r => r.raw_score.getD (r.score.getD 0)
    let normalized_scores :=
      if model_name = "BM25" || model_name = "TF-IDF" then normalize_max scores
      else if model_name = "Fuzzy" then normalize_fuzzy scores
      else scores
    ⟨model_name, top_k,
      (results.take top_k).enum.map fun p =>
        ⟨p.1 + 1, p.2.doc, normalized_scores.getD p.1 0,
          raw_scores.getD p.1 0, model_name⟩⟩

/-- Projection of a retriever's search output into ranker input dicts: search
results always carry both the score and the raw_score key. -/
def toRankerInput (l : List Retrieval.SearchResult) : List RInput :=
  l.map fun r => ⟨r.doc, some r.score, some r.raw_score⟩

/-- The per-document aggregation record built inside merge_rankings. -/
structure MergedData where
  doc : String
  weighted_score : ℚ
  model_scores : List (String × ℚ)
  deriving DecidableEq

/-- One entry of the list returned by merge_rankings. -/
structure MergedResult where
  rank : ℕ
  doc : String
  score : ℚ
  model_scores : List (String × ℚ)
  model : String
  deriving DecidableEq

/-- Python dict assignment model_scores[model_name] = score on an
insertion-ordered association list. -/
def setA : List (String × ℚ) → String → ℚ → List (String × ℚ)
  | [], m, s => [(m, s)]
  | (k, v) :: t, m, s => if m = k then (k, s) :: t else (k, v) :: setA t m s

/-- One iteration of the inner loop of merge_rankings: create the doc_scores
entry for key if missing (weighted_score starting at 0), then add the weighted
contribution and record the model score. -/
def upsert (ds : List (String × MergedData)) (key doc : String) (contrib : ℚ)
    (m : String) (s : ℚ) : List (String × MergedData) :=
  match ds with
  | [] => [(key, ⟨doc, contrib, [(m, s)]⟩)]
  | (k, v) :: t =>
    if key = k then
      (k, ⟨v.doc, v.weighted_score + contrib, setA v.model_scores m s⟩) :: t
    else (k, v) :: upsert t key doc contrib m s

/-- The inner loop over one model's result entries.  The doc_id key is the
document identifier (result['doc'].get('doc_id', ...) in the source, where our
doc field already is that identifier). -/
def addEntries (ds : List (String × MergedData)) (w : ℚ) (m : String)
    (entries : List ROutput) : List (String × MergedData) :=
  entries.foldl (fun acc e => upsert acc e.doc e.doc (e.score * w) m e.score) ds

/-- The outer loop of merge_rankings: models absent from the weight map are
skipped. -/
def docScoresFrom (ws : List (String × ℚ)) :
    List (String × MergedData) → List (String × List ROutput) →
    List (String × MergedData)
  | acc, [] => acc
  | acc, (m, entries) :: t =>
    match lookupA m ws with
    | none => docScoresFrom ws acc t
    | some w => docScoresFrom ws (addEntries acc w m entries) t

/-- The doc_scores dict built by merge_rankings. -/
def docScores (rs : List (String × List ROutput)) (ws : List (String × ℚ)) :
    List (String × MergedData) :=
  docScoresFrom ws [] rs

/-- DocumentRanker.merge_rankings: aggregate weighted scores per document id,
sort descending by combined score (Python sorted is stable, modelled by a
stable insertion sort with a strict comparison) and attach 1-based ranks. -/
def merge_rankings (rs : List (String × List ROutput)) (ws : List (String × ℚ)) :
    List MergedResult :=
  (((docScores rs ws).insertionSort
      fun a b => b.2.weighted_score < a.2.weighted_score).enum.map
    fun p => ⟨p.1 + 1, p.2.2.doc, p.2.2.weighted_score, p.2.2.model_scores, "Hybrid"⟩)

/-- The combined score of document d under the spec reading of weighted fusion:
the sum over the models of weight times that model's score for d, models
missing from the weight map and models that did not return d contributing 0. -/
def combinedSpec (rs : List (String × List ROutput)) (ws : List (String × ℚ))
    (d : String) : ℚ :=
  (rs.map fun p =>
    match lookupA p.1 ws with
    | none => 0
    | some w => w * ((p.2.filter fun e => e.doc = d).map ROutput.score).sum).sum

/-- Whether document d is returned by at least one model that has a weight
(such documents, and only such documents, get a doc_scores entry). -/
def touchedB (d : String) (rs : List (String × List ROutput))
    (ws : List (String × ℚ)) : Bool :=
  rs.any fun p => (lookupA p.1 ws).isSome && p.2.any fun e => e.doc = d

/-- The combined score merge_rankings assigns to document d, if d appears. -/
def scoreAt (d : String) (ds : List (String × MergedData)) : Option ℚ :=
  (lookupA d ds).map MergedData.weighted_score

end DocumentRanker

namespace ConfidenceScorer

/-- The verdict record returned by evaluate_confidence. -/
structure ConfidenceEval where
  is_low_confidence : Bool
  top_score : ℚ
  warning_message : Option String
  recommendation : Option String
  threshold : ℚ
  deriving DecidableEq

/-- ConfidenceScorer.LOW_CONFIDENCE_THRESHOLD. -/
def LOW_CONFIDENCE_THRESHOLD : ℚ := 1/5

/-- The fixed warning text (the source interpolates the numeric score into the
message; the text itself is what matters to the claims). -/
def warningText : String :=
  "Warning: Retrieved results may not be relevant. Matching confidence is low. Consider rephrasing your query or checking translation quality."

/-- The recommendation attached to an empty result. -/
def noResultsRec : String := "No results found. Try rephrasing your query."

/-- ConfidenceScorer._generate_recommendation. -/
def recommendationFor (model : String) : String :=
  if model = "BM25" || model = "TF-IDF" then
    "Try using different keywords or check if translation is accurate."
  else if model = "Fuzzy" then
    "Check for spelling errors or try different query formulation."
  else if model = "Semantic" then
    "Try rephrasing the query or using more specific terms."
  else "Try rephrasing your query with different words."

/-- ConfidenceScorer.evaluate_confidence with the scorer's threshold. -/
def evaluate_confidence (threshold : ℚ) (rr : DocumentRanker.RankedResults) :
    ConfidenceEval :=
  match rr.results with
  | [] => ⟨true, 0, some warningText, some noResultsRec, threshold⟩
  | top :: _ =>
    if top.score < threshold then
      ⟨true, top.score, some warningText, some (recommendationFor rr.model), threshold⟩
    else ⟨false, top.score, none, none, threshold⟩

end ConfidenceScorer

namespace EvaluationMetrics

/-- EvaluationMetrics.precision_at_k: relevant count within the first k
retrieved ids, divided by k; 0 for an empty retrieved list or k = 0.  The
source converts relevant_docs to a set, modelled by Finset. -/
def precision_at_k (retrieved : List String) (relevant : Finset String)
    (k : ℕ) : ℚ :=
  if retrieved = [] ∨ k = 0 then 0
  else (((retrieved.take k).filter fun d => d ∈ relevant).length : ℚ) / k

/-- EvaluationMetrics.recall_at_k: relevant count within the first k retrieved
ids, divided by the size of the relevant set; 0 if that set is empty. -/
def recall_at_k (retrieved : List String) (relevant : Finset String)
    (k : ℕ) : ℚ :=
  if relevant = ∅ then 0
  else (((retrieved.take k).filter fun d => d ∈ relevant).length : ℚ) / relevant.card

/-- The scan inside mean_reciprocal_rank, carrying the 1-based position. -/
def mrrAux : List String → Finset String → ℕ → ℚ
  | [], _, _ => 0
  | d :: t, relevant, i => if d ∈ relevant then 1 / (i : ℚ) else mrrAux t relevant (i + 1)

/-- EvaluationMetrics.mean_reciprocal_rank: reciprocal of the 1-based rank of
the first relevant retrieved id, 0 if none is relevant. -/
def mean_reciprocal_rank (retrieved : List String) (relevant : Finset String) : ℚ :=
  mrrAux retrieved relevant 1

/-- EvaluationMetrics.ndcg_at_k on the binary-relevance path (the optional
graded relevance_scores argument of the source is None throughout the
pipeline).  enumerate(retrieved[:k], 1) gives 1-based positions i with
discount log2(i + 1); the ideal gain list is [1] * min(k, len(relevant_set)).
Real-valued because of log2. -/
noncomputable def ndcg_at_k (retrieved : List String) (relevant : Finset String)
    (k : ℕ) : ℝ :=
  if retrieved = [] ∨ k = 0 then 0
  else
    let dcg := ((retrieved.take k).enum.map fun p =>
      (if p.2 ∈ relevant then (1 : ℝ) else 0) / Real.logb 2 ((p.1 : ℝ) + 2)).sum
    let ideal_relevances := List.replicate (min k relevant.card) (1 : ℝ)
    let idcg := (ideal_relevances.enum.map fun p =>
      p.2 / Real.logb 2 ((p.1 : ℝ) + 2)).sum
    if idcg = 0 then 0 else dcg / idcg

/-- Modelled from the claim wording, for comparison with ndcg_at_k: DCG as the
sum over the first k retrieved identifiers of (1 if relevant else 0) divided by
log2(position + 1) with 1-based positions, divided by the ideal DCG of
min(k, size of the relevant set) relevant documents placed first, and 0 when
that ideal DCG is 0. -/
noncomputable def ndcg_claim (retrieved : List String) (relevant : Finset String)
    (k : ℕ) : ℝ :=
  let dcg := ((List.range (min k retrieved.length)).map fun i : ℕ =>
    (if retrieved.getD i emptyStr ∈ relevant then (1 : ℝ) else 0) /
      Real.logb 2 ((i : ℝ) + 2)).sum
  let idcg := ((List.range (min k relevant.card)).map fun i : ℕ =>
    (1 : ℝ) / Real.logb 2 ((i : ℝ) + 2)).sum
  if idcg = 0 then 0 else dcg / idcg

end EvaluationMetrics

namespace SystemEvaluator

/-- One CSV row of the relevance-label file, as produced by csv.DictReader:
each field is None (modelled none) when the row is short or malformed, in which
case the .strip() call on it raises.  The language and annotator columns are
never read by _load_labels and are omitted. -/
structure LabelRow where
  query : Option String
  doc_id : Option String
  doc_url : Option String
  relevant : Option String
  deriving DecidableEq

/-- Whether processing the row succeeds (no field access raises). -/
def rowOk (r : LabelRow) : Bool :=
  r.query.isSome && r.doc_id.isSome && r.doc_url.isSome && r.relevant.isSome

/-- Python str.strip over the underlying character list (String.trim itself is
a compiled extern whose byte-position arithmetic a proof cannot evaluate; this
equivalent is structurally recursive). -/
def pyStrip (s : String) : String :=
  ⟨((s.data.dropWhile Char.isWhitespace).reverse.dropWhile Char.isWhitespace).reverse⟩

/-- Python str.lower over the underlying character list, for the same reason. -/
def pyLower (s : String) : String :=
  ⟨s.data.map Char.toLower⟩

/-- defaultdict(set) update self.labels[query].add(identifier): first touch of
a query appends its entry, insertion order preserved. -/
def addLabel : List (String × Finset String) → String → String →
    List (String × Finset String)
  | [], q, ident => [(q, {ident})]
  | (k, s) :: t, q, ident =>
    if q = k then (k, insert ident s) :: t else (k, s) :: addLabel t q ident

/-- The body of the row loop in _load_labels, on a row whose field accesses
succeed: rows marked yes add doc_id (or, when doc_id is empty, doc_url) to the
query's relevant set; other rows leave the mapping unchanged. -/
def applyRow (st : List (String × Finset String)) (r : LabelRow) :
    List (String × Finset String) :=
  match r.query, r.doc_id, r.doc_url, r.relevant with
  | some q, some did, some durl, some rel =>
    if pyLower (pyStrip rel) = "yes" then
      addLabel st (pyStrip q) (if pyStrip did ≠ "" then pyStrip did else pyStrip durl)
    else st
  | _, _, _, _ => st

/-- The row loop of _load_labels.  The try/except in the source wraps the whole
loop, so the first row whose field access raises ends the iteration: the
exception propagates out of the for statement and is caught at file scope,
leaving the mapping as accumulated so far. -/
def loadRows : List (String × Finset String) → List LabelRow →
    List (String × Finset String)
  | st, [] => st
  | st, r :: rs => if rowOk r then loadRows (applyRow st r) rs else st

/-- SystemEvaluator._load_labels restricted to the query-to-relevant-set
mapping it builds (self.labels). -/
def load_labels (rows : List LabelRow) : List (String × Finset String) :=
  loadRows [] rows

/-- The loader that processes every well-formed row, used to state what the
code loader actually returns (the well-formed prefix). -/
def loadAllRows (rows : List LabelRow) : List (String × Finset String) :=
  rows.foldl applyRow []

/-- Per-query record assembled in evaluate_model (the per_query list entries:
the four metrics plus the relevant and retrieved-relevant counts). -/
structure PerQuery where
  query : String
  p10 : ℝ
  r50 : ℝ
  n10 : ℝ
  mrr : ℝ
  num_relevant : ℕ
  num_retrieved_relevant : ℕ

/-- EvaluationMetrics.calculate_all_metrics at the evaluator's cutoffs,
together with the two counts recorded per query. -/
noncomputable def queryMetrics (q : String) (rel : Finset String)
    (retrieved : List String) : PerQuery :=
  ⟨q, ((EvaluationMetrics.precision_at_k retrieved rel 10 : ℚ) : ℝ),
    ((EvaluationMetrics.recall_at_k retrieved rel 50 : ℚ) : ℝ),
    EvaluationMetrics.ndcg_at_k retrieved rel 10,
    ((EvaluationMetrics.mean_reciprocal_rank retrieved rel : ℚ) : ℝ),
    rel.card,
    ((retrieved.take 50).filter fun d => d ∈ rel).length⟩

/-- The query loop of evaluate_model: judged queries missing from the supplied
results mapping are skipped (the source logs a warning), the rest contribute a
per-query record in label order. -/
noncomputable def collectPerQuery (results : List (String × List String)) :
    List (String × Finset String) → List PerQuery
  | [] => []
  | (q, rel) :: rest =>
    match lookupA q results with
    | none => collectPerQuery results rest
    | some retrieved => queryMetrics q rel retrieved :: collectPerQuery results rest

/-- sum(values) / len(values) if values else 0.0. -/
noncomputable def avgR (l : List ℝ) : ℝ :=
  if l.isEmpty then 0 else l.sum / (l.length : ℝ)

/-- The dict returned by evaluate_model: aggregate metrics, per-query records,
per-metric target booleans and the evaluated-query count. -/
structure ModelEval where
  model : String
  p10 : ℝ
  r50 : ℝ
  n10 : ℝ
  mrr : ℝ
  per_query : List PerQuery
  num_queries : ℕ
  meets_p10 : Prop
  meets_r50 : Prop
  meets_n10 : Prop
  meets_mrr : Prop

/-- SystemEvaluator.evaluate_model: per-query metrics for every judged query
present in the results mapping, arithmetic-mean aggregation (0.0 with no
evaluated queries) and comparison against the TARGETS thresholds
precision@10 >= 0.6, recall@50 >= 0.5, ndcg@10 >= 0.5, mrr >= 0.4. -/
noncomputable def evaluate_model (labels : List (String × Finset String))
    (model_name : String) (results : List (String × List String)) : ModelEval :=
  let pq := collectPerQuery results labels
  let a1 := avgR (pq.map PerQuery.p10)
  let a2 := avgR (pq.map PerQuery.r50)
  let a3 := avgR (pq.map PerQuery.n10)
  let a4 := avgR (pq.map PerQuery.mrr)
  ⟨model_name, a1, a2, a3, a4, pq, pq.length,
    a1 ≥ 3/5, a2 ≥ 1/2, a3 ≥ 1/2, a4 ≥ 2/5⟩

end SystemEvaluator

section Fixtures

open Retrieval DocumentRanker SystemEvaluator

/-- Two-document collection used to exercise the retrievers. -/
def bmDocs : List String := ["a", "b"]

/-- BM25 raw scores for bmDocs with both scores at least 1. -/
def bmScores : List ℚ := [2, 3]

/-- The top entry of BM25Retriever.search bmDocs bmScores 2. -/
def bmTop : SearchResult := ⟨1, "b", 1, 3, 1⟩

/-- The remaining entries of BM25Retriever.search bmDocs bmScores 2. -/
def bmRest : List SearchResult := [⟨0, "a", 2/3, 2, 2⟩]

/-- A ranked result whose top normalized score sits exactly at the 0.20
threshold. -/
def rrAtThreshold : RankedResults :=
  ⟨"BM25", 10, [⟨1, "d1", 1/5, 2, "BM25"⟩]⟩

/-- A ranked result whose top normalized score is 0.19. -/
def rrBelow : RankedResults :=
  ⟨"BM25", 10, [⟨1, "d1", 19/100, 2, "BM25"⟩]⟩

/-- An empty ranked result. -/
def rrEmpty : RankedResults := ⟨"BM25", 10, []⟩

/-- Placeholder output entry used as a list-head default. -/
def defaultROut : ROutput := ⟨0, emptyStr, 0, 0, emptyStr⟩

/-- Fusion input: a single model A returning the single document d1. -/
def mrgRs : List (String × List ROutput) := [("A", [⟨1, "d1", 1, 1, "A"⟩])]

/-- Weight map assigning model A weight 0. -/
def mrgWs : List (String × ℚ) := [("A", 0)]

/-- Fusion input for the weight-zero witness: models A and B both return d1. -/
def mrgRsW : List (String × List ROutput) :=
  [("A", [⟨1, "d1", 1, 1, "A"⟩]), ("B", [⟨1, "d1", 1, 1, "B"⟩])]

/-- Weights for the weight-zero witness: A gets 0, B gets 1. -/
def mrgWsW : List (String × ℚ) := [("A", 0), ("B", 1)]

/-- A well-formed label row for query q1. -/
def rowGood1 : LabelRow := ⟨some ("q1"), some ("d1"), some ("u1"), some ("yes")⟩

/-- A malformed label row: the query field is missing, so row access raises. -/
def rowBad : LabelRow := ⟨none, some ("d9"), some ("u9"), some ("yes")⟩

/-- A well-formed label row for query q2, placed after the malformed row. -/
def rowGood2 : LabelRow := ⟨some ("q2"), some ("d2"), some ("u2"), some ("yes")⟩

end Fixtures

namespace Retrieval

theorem rankOrder_sorted (scores : List ℚ) :
    (rankOrder scores).Pairwise fun i j => scores.getD i 0 ≤ scores.getD j 0 := by
  haveI : IsTotal ℕ (fun i j : ℕ => scores.getD i 0 ≤ scores.getD j 0) :=
    ⟨fun _ _ => le_total _ _⟩
  haveI : IsTrans ℕ (fun i j : ℕ => scores.getD i 0 ≤ scores.getD j 0) :=
    ⟨fun _ _ _ hab hbc => le_trans hab hbc⟩
  exact List.sorted_insertionSort _ _

theorem rankOrder_perm (scores : List ℚ) :
    List.Perm (rankOrder scores) (List.range scores.length) :=
  List.perm_insertionSort _ _

theorem topIdx_pairwise (scores : List ℚ) (k : ℕ) :
    (topIdx scores k).Pairwise fun i j => scores.getD j 0 ≤ scores.getD i 0 := by
  refine List.Pairwise.sublist (List.take_sublist _ _) ?_
  refine List.pairwise_reverse.mpr ?_
  simpa [flip] using rankOrder_sorted scores

theorem rankedFrom_map_raw (docs : List String) (scores : List ℚ) (k : ℕ)
    (f : ℚ → ℚ) :
    (rankedFrom docs scores k f).map SearchResult.raw_score
      = (topIdx scores k).map fun i => scores.getD i 0 := by
  unfold rankedFrom
  rw [List.map_map]
  rw [show (SearchResult.raw_score ∘ fun p : ℕ × ℕ =>
      (⟨p.2, docs.getD p.2 emptyStr, f (scores.getD p.2 0), scores.getD p.2 0,
        p.1 + 1⟩ : SearchResult)) = (fun i => scores.getD i 0) ∘ Prod.snd from rfl]
  rw [← List.map_map, List.enum_map_snd]

theorem rankedFrom_map_score (docs : List String) (scores : List ℚ) (k : ℕ)
    (f : ℚ → ℚ) :
    (rankedFrom docs scores k f).map SearchResult.score
      = (topIdx scores k).map fun i => f (scores.getD i 0) := by
  unfold rankedFrom
  rw [List.map_map]
  rw [show (SearchResult.score ∘ fun p : ℕ × ℕ =>
      (⟨p.2, docs.getD p.2 emptyStr, f (scores.getD p.2 0), scores.getD p.2 0,
        p.1 + 1⟩ : SearchResult)) = (fun i => f (scores.getD i 0)) ∘ Prod.snd from rfl]
  rw [← List.map_map, List.enum_map_snd]

theorem rankedFrom_map_idx (docs : List String) (scores : List ℚ) (k : ℕ)
    (f : ℚ → ℚ) :
    (rankedFrom docs scores k f).map SearchResult.idx = topIdx scores k := by
  unfold rankedFrom
  rw [List.map_map]
  rw [show (SearchResult.idx ∘ fun p : ℕ × ℕ =>
      (⟨p.2, docs.getD p.2 emptyStr, f (scores.getD p.2 0), scores.getD p.2 0,
        p.1 + 1⟩ : SearchResult)) = Prod.snd from rfl]
  exact List.enum_map_snd _

theorem rankedFrom_length (docs : List String) (scores : List ℚ) (k : ℕ)
    (f : ℚ → ℚ) :
    (rankedFrom docs scores k f).length = (topIdx scores k).length := by
  simp [rankedFrom]

theorem rankedFrom_ranks (docs : List String) (scores : List ℚ) (k : ℕ)
    (f : ℚ → ℚ) :
    (rankedFrom docs scores k f).map SearchResult.rank
      = (List.range (rankedFrom docs scores k f).length).map fun i => i + 1 := by
  rw [rankedFrom_length]
  unfold rankedFrom
  rw [List.map_map]
  rw [show (SearchResult.rank ∘ fun p : ℕ × ℕ =>
      (⟨p.2, docs.getD p.2 emptyStr, f (scores.getD p.2 0), scores.getD p.2 0,
        p.1 + 1⟩ : SearchResult)) = (fun i => i + 1) ∘ Prod.fst from rfl]
  rw [← List.map_map, List.enum_map_fst]

theorem rankedFrom_raw_sorted (docs : List String) (scores : List ℚ) (k : ℕ)
    (f : ℚ → ℚ) :
    ((rankedFrom docs scores k f).map SearchResult.raw_score).Pairwise
      fun a b : ℚ => b ≤ a := by
  rw [rankedFrom_map_raw]
  exact List.Pairwise.map _ (fun _ _ h => h) (topIdx_pairwise scores k)

theorem rankedFrom_score_sorted (docs : List String) (scores : List ℚ) (k : ℕ)
    (f : ℚ → ℚ) (hf : ∀ a b : ℚ, a ≤ b → f a ≤ f b) :
    ((rankedFrom docs scores k f).map SearchResult.score).Pairwise
      fun a b : ℚ => b ≤ a := by
  rw [rankedFrom_map_score]
  exact List.Pairwise.map _ (fun _ _ h => hf _ _ h) (topIdx_pairwise scores k)

theorem rankedFrom_score_eq (docs : List String) (scores : List ℚ) (k : ℕ)
    (f : ℚ → ℚ) :
    ∀ x ∈ rankedFrom docs scores k f,
      x.score = f x.raw_score ∧ x.raw_score = scores.getD x.idx 0 := by
  intro x hx
  obtain ⟨p, _, rfl⟩ := List.mem_map.mp hx
  exact ⟨rfl, rfl⟩

theorem topIdx_of_le (scores : List ℚ) (k : ℕ) (h : scores.length ≤ k) :
    topIdx scores k = (rankOrder scores).reverse := by
  have hlen : (rankOrder scores).reverse.length = scores.length := by
    rw [List.length_reverse, (rankOrder_perm scores).length_eq, List.length_range]
  unfold topIdx
  by_cases h0 : k = 0
  · simp only [h0, if_pos rfl]
    exact List.take_of_length_le (le_of_eq hlen)
  · simp only [if_neg h0]
    exact List.take_of_length_le (hlen ▸ h)

theorem topIdx_perm_of_le (scores : List ℚ) (k : ℕ) (h : scores.length ≤ k) :
    List.Perm (topIdx scores k) (List.range scores.length) := by
  rw [topIdx_of_le scores k h]
  exact (List.reverse_perm _).trans (rankOrder_perm scores)

end Retrieval

theorem bm25_one_le_maxScore (scores : List ℚ) (k : ℕ) :
    1 ≤ BM25Retriever.maxScore scores k := by
  unfold BM25Retriever.maxScore
  cases Retrieval.topIdx scores k with
  | nil => exact le_refl 1
  | cons i t => exact le_max_right _ 1

theorem bm25_maxScore_pos (scores : List ℚ) (k : ℕ) :
    0 < BM25Retriever.maxScore scores k :=
  lt_of_lt_of_le zero_lt_one (bm25_one_le_maxScore scores k)

/-- Claim C8: every ranked result produced by a retriever search is rank-monotone:
the raw scores and the normalized scores are non-increasing along the list,
and the rank fields are exactly 1, 2, ..., n.  Stated for all four retrievers,
over every document collection, every library score vector and every top_k. -/
theorem search_rank_monotone (docs : List String) (scores : List ℚ) (k : ℕ) :
    (((BM25Retriever.search docs scores k).map
        Retrieval.SearchResult.raw_score).Pairwise (fun a b : ℚ => b ≤ a)
      ∧ ((BM25Retriever.search docs scores k).map
        Retrieval.SearchResult.score).Pairwise (fun a b : ℚ => b ≤ a)
      ∧ (BM25Retriever.search docs scores k).map Retrieval.SearchResult.rank
        = (List.range (BM25Retriever.search docs scores k).length).map
            (fun i => i + 1))
    ∧ (((TFIDFRetriever.search docs scores k).map
        Retrieval.SearchResult.raw_score).Pairwise (fun a b : ℚ => b ≤ a)
      ∧ ((TFIDFRetriever.search docs scores k).map
        Retrieval.SearchResult.score).Pairwise (fun a b : ℚ => b ≤ a)
      ∧ (TFIDFRetriever.search docs scores k).map Retrieval.SearchResult.rank
        = (List.range (TFIDFRetriever.search docs scores k).length).map
            (fun i => i + 1))
    ∧ (((FuzzyRetriever.search docs scores k).map
        Retrieval.SearchResult.raw_score).Pairwise (fun a b : ℚ => b ≤ a)
      ∧ ((FuzzyRetriever.search docs scores k).map
        Retrieval.SearchResult.score).Pairwise (fun a b : ℚ => b ≤ a)
      ∧ (FuzzyRetriever.search docs scores k).map Retrieval.SearchResult.rank
        = (List.range (FuzzyRetriever.search docs scores k).length).map
            (fun i => i + 1))
    ∧ (((SemanticRetriever.search docs scores k).map
        Retrieval.SearchResult.raw_score).Pairwise (fun a b : ℚ => b ≤ a)
      ∧ ((SemanticRetriever.search docs scores k).map
        Retrieval.SearchResult.score).Pairwise (fun a b : ℚ => b ≤ a)
      ∧ (SemanticRetriever.search docs scores k).map Retrieval.SearchResult.rank
        = (List.range (SemanticRetriever.search docs scores k).length).map
            (fun i => i + 1)) := by
  refine ⟨⟨?_, ?_, ?_⟩, ⟨?_, ?_, ?_⟩, ⟨?_, ?_, ?_⟩, ⟨?_, ?_, ?_⟩⟩
  · exact Retrieval.rankedFrom_raw_sorted docs scores k _
  · refine Retrieval.rankedFrom_score_sorted docs scores k _ ?_
    intro a b hab
    exact (div_le_div_iff_of_pos_right (bm25_maxScore_pos scores k)).mpr hab
  · exact Retrieval.rankedFrom_ranks docs scores k _
  · exact Retrieval.rankedFrom_raw_sorted docs scores k _
  · exact Retrieval.rankedFrom_score_sorted docs scores k _ (fun _ _ h => h)
  · exact Retrieval.rankedFrom_ranks docs scores k _
  · exact Retrieval.rankedFrom_raw_sorted docs scores k _
  · refine Retrieval.rankedFrom_score_sorted docs scores k _ ?_
    intro a b hab
    exact (div_le_div_iff_of_pos_right (by norm_num : (0:ℚ) < 100)).mpr hab
  · exact Retrieval.rankedFrom_ranks docs scores k _
  · exact Retrieval.rankedFrom_raw_sorted docs scores k _
  · refine Retrieval.rankedFrom_score_sorted docs scores k _ ?_
    intro a b hab
    exact (div_le_div_iff_of_pos_right (by norm_num : (0:ℚ) < 2)).mpr (add_le_add_right hab 1)
  · exact Retrieval.rankedFrom_ranks docs scores k _

theorem search_full_coverage (docs : List String) (scores : List ℚ) (k : ℕ)
    (f : ℚ → ℚ) (h : scores.length ≤ k) :
    (Retrieval.rankedFrom docs scores k f).length = scores.length
    ∧ ∀ i, i < scores.length →
        i ∈ (Retrieval.rankedFrom docs scores k f).map Retrieval.SearchResult.idx := by
  constructor
  · rw [Retrieval.rankedFrom_length, (Retrieval.topIdx_perm_of_le scores k h).length_eq,
      List.length_range]
  · intro i hi
    rw [Retrieval.rankedFrom_map_idx]
    exact (Retrieval.topIdx_perm_of_le scores k h).mem_iff.mpr (List.mem_range.mpr hi)

/-- Claim C9: when top_k is at least the collection size, each of the four
retrievers returns a result covering the whole collection (one entry per
document index); and on an empty collection every search returns the empty
result. -/
theorem search_topk_coverage (docs : List String) (scores : List ℚ) (k : ℕ) :
    (scores.length ≤ k →
      ((BM25Retriever.search docs scores k).length = scores.length
        ∧ ∀ i, i < scores.length →
            i ∈ (BM25Retriever.search docs scores k).map Retrieval.SearchResult.idx)
      ∧ ((FuzzyRetriever.search docs scores k).length = scores.length
        ∧ ∀ i, i < scores.length →
            i ∈ (FuzzyRetriever.search docs scores k).map Retrieval.SearchResult.idx)
      ∧ ((TFIDFRetriever.search docs scores k).length = scores.length
        ∧ ∀ i, i < scores.length →
            i ∈ (TFIDFRetriever.search docs scores k).map Retrieval.SearchResult.idx)
      ∧ ((SemanticRetriever.search docs scores k).length = scores.length
        ∧ ∀ i, i < scores.length →
            i ∈ (SemanticRetriever.search docs scores k).map Retrieval.SearchResult.idx))
    ∧ (scores = [] →
      BM25Retriever.search docs scores k = []
      ∧ FuzzyRetriever.search docs scores k = []
      ∧ TFIDFRetriever.search docs scores k = []
      ∧ SemanticRetriever.search docs scores k = []) := by
  constructor
  · intro h
    exact ⟨search_full_coverage docs scores k _ h,
      search_full_coverage docs scores k _ h,
      search_full_coverage docs scores k _ h,
      search_full_coverage docs scores k _ h⟩
  · rintro rfl
    refine ⟨?_, ?_, ?_, ?_⟩ <;>
      simp [BM25Retriever.search, FuzzyRetriever.search, TFIDFRetriever.search,
        SemanticRetriever.search, Retrieval.rankedFrom, Retrieval.topIdx,
        Retrieval.rankOrder]

/-- Witness for search_topk_coverage at a two-document collection with
top_k 5 and at the empty collection, exercising the BM25 and Semantic
conjuncts. -/
theorem search_topk_coverage_witness :
    (bmScores.length ≤ 5
      ∧ ((BM25Retriever.search bmDocs bmScores 5).length = bmScores.length
        ∧ ∀ i, i < bmScores.length →
            i ∈ (BM25Retriever.search bmDocs bmScores 5).map Retrieval.SearchResult.idx)
      ∧ ((SemanticRetriever.search bmDocs bmScores 5).length = bmScores.length
        ∧ ∀ i, i < bmScores.length →
            i ∈ (SemanticRetriever.search bmDocs bmScores 5).map
                  Retrieval.SearchResult.idx))
    ∧ (([] : List ℚ) = [] ∧ BM25Retriever.search [] [] 3 = []
        ∧ SemanticRetriever.search [] [] 3 = []) :=
  ⟨⟨by decide, ((search_topk_coverage bmDocs bmScores 5).1 (by decide)).1,
      ((search_topk_coverage bmDocs bmScores 5).1 (by decide)).2.2.2⟩,
    ⟨rfl, ((search_topk_coverage [] [] 3).2 rfl).1,
      ((search_topk_coverage [] [] 3).2 rfl).2.2.2⟩⟩

theorem rankedFrom_cons_head (docs : List String) (scores : List ℚ) (k : ℕ)
    (f : ℚ → ℚ) (r : Retrieval.SearchResult) (rest : List Retrieval.SearchResult)
    (hs : Retrieval.rankedFrom docs scores k f = r :: rest) :
    ∃ i t, Retrieval.topIdx scores k = i :: t ∧ r.raw_score = scores.getD i 0 := by
  cases h : Retrieval.topIdx scores k with
  | nil =>
    rw [Retrieval.rankedFrom, h] at hs
    simp at hs
  | cons i t =>
    refine ⟨i, t, rfl, ?_⟩
    rw [Retrieval.rankedFrom, h] at hs
    have : (⟨i, docs.getD i emptyStr, f (scores.getD i 0), scores.getD i 0,
        1⟩ : Retrieval.SearchResult) = r := (List.cons.injEq _ _ _ _).mp hs |>.1
    rw [← this]

theorem scores_getD_nonneg (scores : List ℚ) (hnn : ∀ s ∈ scores, 0 ≤ s) (i : ℕ) :
    0 ≤ scores.getD i 0 := by
  rcases lt_or_le i scores.length with hlt | hge
  · rw [List.getD_eq_getElem scores 0 hlt]
    exact hnn _ (List.getElem_mem hlt)
  · rw [List.getD_eq_default scores 0 hge]

/-- Claim C1, amended: BM25Retriever.search divides every raw score not by the
maximum raw score of the returned set, but by max(top raw score, 1.0); the
top entry's normalized score is 1.0 exactly when its raw score is at least 1
(not merely nonzero), and when the top raw score is 0 (with the nonnegative
scores BM25Okapi produces) all normalized scores are 0. -/
theorem bm25_norm_amended (docs : List String) (scores : List ℚ) (k : ℕ)
    (r : Retrieval.SearchResult) (rest : List Retrieval.SearchResult)
    (hs : BM25Retriever.search docs scores k = r :: rest) :
    (∀ x ∈ BM25Retriever.search docs scores k,
      x.score = x.raw_score / max r.raw_score 1)
    ∧ (1 ≤ r.raw_score → r.score = 1)
    ∧ ((∀ s ∈ scores, 0 ≤ s) → r.raw_score = 0 →
        ∀ x ∈ BM25Retriever.search docs scores k, x.score = 0) := by
  obtain ⟨i, t, htop, hraw⟩ :=
    rankedFrom_cons_head docs scores k (fun s => s / BM25Retriever.maxScore scores k)
      r rest hs
  have hM : BM25Retriever.maxScore scores k = max r.raw_score 1 := by
    rw [BM25Retriever.maxScore, htop, hraw]
  have part1 : ∀ x ∈ BM25Retriever.search docs scores k,
      x.score = x.raw_score / max r.raw_score 1 := by
    intro x hx
    have hx2 := Retrieval.rankedFrom_score_eq docs scores k
      (fun s => s / BM25Retriever.maxScore scores k) x hx
    rw [hx2.1, hM]
  refine ⟨part1, ?_, ?_⟩
  · intro h1
    have hr : r ∈ BM25Retriever.search docs scores k := by
      rw [hs]; exact List.mem_cons_self r rest
    rw [part1 r hr, max_eq_left h1]
    exact div_self (ne_of_gt (lt_of_lt_of_le zero_lt_one h1))
  · intro hnn h0 x hx
    have hsc := part1 x hx
    rw [h0, max_eq_right zero_le_one, div_one] at hsc
    have hle : x.raw_score ≤ r.raw_score := by
      have hp := Retrieval.rankedFrom_raw_sorted docs scores k
        (fun s => s / BM25Retriever.maxScore scores k)
      rw [show Retrieval.rankedFrom docs scores k
          (fun s => s / BM25Retriever.maxScore scores k)
          = BM25Retriever.search docs scores k from rfl, hs, List.map_cons,
        List.pairwise_cons] at hp
      rcases List.mem_cons.mp (hs ▸ hx) with rfl | hxr
      · exact le_refl _
      · exact hp.1 _ (List.mem_map_of_mem _ hxr)
    have hge : 0 ≤ x.raw_score := by
      have hx2 := Retrieval.rankedFrom_score_eq docs scores k
        (fun s => s / BM25Retriever.maxScore scores k) x hx
      rw [hx2.2]
      exact scores_getD_nonneg scores hnn x.idx
    rw [hsc, le_antisymm (h0 ▸ hle) hge]

/-- Witness for bm25_norm_amended at scores [2, 3] and top_k 2: the returned
head has raw score 3 and normalized score 1, and every entry is divided by
max(3, 1). -/
theorem bm25_norm_amended_witness :
    BM25Retriever.search bmDocs bmScores 2 = bmTop :: bmRest
    ∧ ((∀ x ∈ BM25Retriever.search bmDocs bmScores 2,
          x.score = x.raw_score / max bmTop.raw_score 1)
      ∧ (1 ≤ bmTop.raw_score → bmTop.score = 1)
      ∧ ((∀ s ∈ bmScores, 0 ≤ s) → bmTop.raw_score = 0 →
          ∀ x ∈ BM25Retriever.search bmDocs bmScores 2, x.score = 0)) :=
  ⟨by
    norm_num [BM25Retriever.search, BM25Retriever.maxScore, Retrieval.rankedFrom,
      Retrieval.topIdx, Retrieval.rankOrder, List.insertionSort, List.orderedInsert,
      List.enum, List.enumFrom, bmDocs, bmScores, bmTop, bmRest, emptyStr],
  bm25_norm_amended bmDocs bmScores 2 bmTop bmRest (by
    norm_num [BM25Retriever.search, BM25Retriever.maxScore, Retrieval.rankedFrom,
      Retrieval.topIdx, Retrieval.rankOrder, List.insertionSort, List.orderedInsert,
      List.enum, List.enumFrom, bmDocs, bmScores, bmTop, bmRest, emptyStr])⟩

/-- Claim C1, counterexample to the claim as stated: with the single raw BM25 score
1/2 the maximum raw score of the returned set is 1/2, which is nonzero, yet
the top normalized score is 1/2, not 1.0 (the code divides by
max(raw maximum, 1.0), not by the raw maximum). -/
theorem bm25_norm_claim_counterexample :
    (BM25Retriever.search (["a"]) ([1/2]) 1).map Retrieval.SearchResult.score
      = [1/2]
    ∧ (BM25Retriever.search (["a"]) ([1/2]) 1).map Retrieval.SearchResult.raw_score
      = [1/2]
    ∧ ((1 : ℚ)/2 ≠ 0) ∧ ((1 : ℚ)/2 ≠ 1) := by
  refine ⟨?_, ?_, by norm_num, by norm_num⟩ <;>
    norm_num [BM25Retriever.search, BM25Retriever.maxScore, Retrieval.rankedFrom,
      Retrieval.topIdx, Retrieval.rankOrder, List.insertionSort, List.orderedInsert,
      List.enum, List.enumFrom, emptyStr]

/-- Claim C2, code bug at the failing input: a fuzzy raw partial-ratio score of 100
for the single document d0.  FuzzyRetriever.search already stores
score = raw / 100 = 1.0, and rank_documents with model Fuzzy divides that
value by 100 again, so the final normalized score is 0.01 rather than
raw / 100 = 1.0 as the claim (and _normalize_fuzzy's documented 0..100 input
scale) requires. -/
theorem fuzzy_pipeline_double_normalization :
    (DocumentRanker.rank_documents
        (DocumentRanker.toRankerInput (FuzzyRetriever.search (["d0"]) ([100]) 1))
        ("Fuzzy") 10).results
      = [⟨1, "d0", 1/100, 100, "Fuzzy"⟩]
    ∧ ((100 : ℚ) / 100 = 1)
    ∧ ((1 : ℚ)/100 ≠ (100 : ℚ) / 100) := by
  refine ⟨?_, by norm_num, by norm_num⟩
  norm_num [DocumentRanker.rank_documents, DocumentRanker.toRankerInput,
    DocumentRanker.normalize_fuzzy, FuzzyRetriever.search, Retrieval.rankedFrom,
    Retrieval.topIdx, Retrieval.rankOrder, List.insertionSort, List.orderedInsert,
    List.enum, List.enumFrom, emptyStr]
  rw [if_neg (by decide : ¬("Fuzzy" = "BM25" ∨ "Fuzzy" = "TF-IDF"))]
  norm_num

/-- Claim C4: evaluate_confidence flags low confidence exactly when the ranked
result list is empty or the top normalized score is strictly below the
threshold; an empty result always carries the warning and the no-results
recommendation; with the default threshold 0.20 a top score of exactly 0.20
is not flagged while 0.19 is. -/
theorem confidence_threshold_spec :
    (∀ (t : ℚ) (rr : DocumentRanker.RankedResults),
      ((ConfidenceScorer.evaluate_confidence t rr).is_low_confidence = true
        ↔ rr.results = [] ∨ (rr.results.headD defaultROut).score < t)
      ∧ (rr.results = [] →
          (ConfidenceScorer.evaluate_confidence t rr).warning_message
              = some ConfidenceScorer.warningText
            ∧ (ConfidenceScorer.evaluate_confidence t rr).recommendation
              = some ConfidenceScorer.noResultsRec))
    ∧ (ConfidenceScorer.evaluate_confidence (1/5) rrAtThreshold).is_low_confidence
        = false
    ∧ (ConfidenceScorer.evaluate_confidence (1/5) rrBelow).is_low_confidence = true
    ∧ (ConfidenceScorer.evaluate_confidence (1/5) rrEmpty).is_low_confidence = true := by
  refine ⟨?_, ?_, ?_, rfl⟩
  · intro t rr
    constructor
    · cases h : rr.results with
      | nil =>
        simp [ConfidenceScorer.evaluate_confidence, h]
      | cons top tl =>
        by_cases hlt : top.score < t <;>
          simp [ConfidenceScorer.evaluate_confidence, h, hlt]
    · intro h
      simp [ConfidenceScorer.evaluate_confidence, h]
  · norm_num [ConfidenceScorer.evaluate_confidence, rrAtThreshold]
  · norm_num [ConfidenceScorer.evaluate_confidence, rrBelow]

/-- Witness for confidence_threshold_spec: the empty ranked result is flagged
with the warning text and the no-results recommendation. -/
theorem confidence_threshold_spec_witness :
    rrEmpty.results = []
    ∧ ((ConfidenceScorer.evaluate_confidence (1/5) rrEmpty).warning_message
          = some ConfidenceScorer.warningText
      ∧ (ConfidenceScorer.evaluate_confidence (1/5) rrEmpty).recommendation
          = some ConfidenceScorer.noResultsRec) :=
  ⟨rfl, (confidence_threshold_spec.1 (1/5) rrEmpty).2 rfl⟩

namespace DocumentRanker

theorem scoreAt_nil (d : String) : scoreAt d [] = none := rfl

theorem scoreAt_upsert (ds : List (String × MergedData)) (key doc : String)
    (c : ℚ) (m : String) (s : ℚ) (d : String) :
    scoreAt d (upsert ds key doc c m s)
      = if d = key then some ((scoreAt d ds).getD 0 + c) else scoreAt d ds := by
  induction ds with
  | nil =>
    by_cases h : d = key <;> simp [upsert, scoreAt, lookupA, h]
  | cons hd t ih =>
    obtain ⟨k, v⟩ := hd
    by_cases hk : key = k
    · subst hk
      by_cases hd : d = key <;> simp [upsert, scoreAt, lookupA, hd]
    · by_cases hd : d = k
      · subst hd
        have hdk : ¬ d = key := fun he => hk he.symm
        simp [upsert, scoreAt, lookupA, hk, hdk]
      · simp only [upsert, if_neg hk]
        rw [show scoreAt d ((k, v) :: upsert t key doc c m s)
            = scoreAt d (upsert t key doc c m s) by simp [scoreAt, lookupA, hd]]
        rw [show scoreAt d ((k, v) :: t) = scoreAt d t by simp [scoreAt, lookupA, hd]]
        exact ih

theorem any_false_filter_nil (l : List ROutput) (d : String)
    (h : (l.any fun e => e.doc = d) = false) :
    l.filter (fun e => e.doc = d) = [] := by
  rw [List.filter_eq_nil_iff]
  intro a ha hc
  have hx : l.any (fun e => e.doc = d) = true := List.any_eq_true.mpr ⟨a, ha, hc⟩
  rw [h] at hx
  exact Bool.false_ne_true hx

theorem scoreAt_addEntries (w : ℚ) (m : String) (entries : List ROutput) :
    ∀ (ds : List (String × MergedData)) (d : String),
    scoreAt d (addEntries ds w m entries)
      = if entries.any (fun e => e.doc = d) then
          some ((scoreAt d ds).getD 0
            + w * ((entries.filter fun e => e.doc = d).map ROutput.score).sum)
        else scoreAt d ds := by
  induction entries with
  | nil => simp [addEntries]
  | cons e t ih =>
    intro ds d
    rw [show addEntries ds w m (e :: t)
        = addEntries (upsert ds e.doc e.doc (e.score * w) m e.score) w m t from rfl]
    rw [ih, scoreAt_upsert]
    by_cases hd : d = e.doc
    · subst hd
      by_cases ht : (t.any fun x => x.doc = e.doc) = true
      · simp [ht, List.any_cons, List.filter_cons]
        ring
      · have hbf : (t.any fun x => x.doc = e.doc) = false := by
          cases hval : t.any fun x => x.doc = e.doc
          · rfl
          · exact absurd hval ht
        have hfil : t.filter (fun x => x.doc = e.doc) = [] :=
          any_false_filter_nil t e.doc hbf
        simp [hbf, List.any_cons, List.filter_cons, hfil]
        ring
    · have hed : ¬ e.doc = d := fun he => hd he.symm
      simp [hd, hed, List.any_cons, List.filter_cons]

theorem combinedSpec_nil (ws : List (String × ℚ)) (d : String) :
    combinedSpec [] ws d = 0 := rfl

theorem touchedB_nil (d : String) (ws : List (String × ℚ)) :
    touchedB d [] ws = false := rfl

theorem combinedSpec_cons (m : String) (entries : List ROutput)
    (t : List (String × List ROutput)) (ws : List (String × ℚ)) (d : String) :
    combinedSpec ((m, entries) :: t) ws d
      = (match lookupA m ws with
        | none => 0
        | some w => w * ((entries.filter fun e => e.doc = d).map ROutput.score).sum)
        + combinedSpec t ws d := by
  simp [combinedSpec]

theorem touchedB_cons (m : String) (entries : List ROutput)
    (t : List (String × List ROutput)) (ws : List (String × ℚ)) (d : String) :
    touchedB d ((m, entries) :: t) ws
      = (((lookupA m ws).isSome && entries.any fun e => e.doc = d)
          || touchedB d t ws) := by
  simp [touchedB, List.any_cons]

theorem combinedSpec_eq_zero_of_not_touched (d : String)
    (rs : List (String × List ROutput)) (ws : List (String × ℚ))
    (h : touchedB d rs ws = false) : combinedSpec rs ws d = 0 := by
  induction rs with
  | nil => rfl
  | cons p t ih =>
    obtain ⟨m, entries⟩ := p
    rw [touchedB_cons] at h
    obtain ⟨h1, h2⟩ := Bool.or_eq_false_iff.mp h
    rw [combinedSpec_cons, ih h2, add_zero]
    cases hw : lookupA m ws with
    | none => simp
    | some w =>
      rw [hw] at h1
      have hany : (entries.any fun e => e.doc = d) = false := by
        simpa using h1
      rw [any_false_filter_nil entries d hany]
      simp

theorem scoreAt_docScoresFrom (ws : List (String × ℚ)) (d : String) :
    ∀ (rs : List (String × List ROutput)) (acc : List (String × MergedData)),
    scoreAt d (docScoresFrom ws acc rs)
      = if touchedB d rs ws then
          some ((scoreAt d acc).getD 0 + combinedSpec rs ws d)
        else scoreAt d acc := by
  intro rs
  induction rs with
  | nil => simp [docScoresFrom, touchedB, combinedSpec]
  | cons p t ih =>
    intro acc
    obtain ⟨m, entries⟩ := p
    cases hw : lookupA m ws with
    | none =>
      rw [show docScoresFrom ws acc ((m, entries) :: t)
          = docScoresFrom ws acc t by simp [docScoresFrom, hw]]
      rw [ih, touchedB_cons, combinedSpec_cons, hw]
      simp
    | some w =>
      rw [show docScoresFrom ws acc ((m, entries) :: t)
          = docScoresFrom ws (addEntries acc w m entries) t by
        simp [docScoresFrom, hw]]
      rw [ih, touchedB_cons, combinedSpec_cons, hw, scoreAt_addEntries]
      by_cases ha : (entries.any fun e => e.doc = d) = true
      · by_cases ht : touchedB d t ws = true
        · simp only [ha, ht, if_true, Option.getD_some, Bool.and_true,
            Option.isSome_some, Bool.true_and, Bool.true_or, Option.some.injEq]
          ring
        · have htf : touchedB d t ws = false := by
            cases hv : touchedB d t ws
            · rfl
            · exact absurd hv ht
          rw [combinedSpec_eq_zero_of_not_touched d t ws htf]
          simp only [htf, Bool.false_eq_true, if_false, ha, if_true,
            Option.isSome_some, Bool.true_and, Bool.true_or, Option.some.injEq]
          ring
      · have haf : (entries.any fun e => e.doc = d) = false := by
          cases hv : entries.any fun e => e.doc = d
          · rfl
          · exact absurd hv ha
        rw [any_false_filter_nil entries d haf]
        by_cases ht : touchedB d t ws = true
        · simp [haf, ht]
        · have htf : touchedB d t ws = false := by
            cases hv : touchedB d t ws
            · rfl
            · exact absurd hv ht
          simp [haf, htf]

theorem scoreAt_docScores (rs : List (String × List ROutput))
    (ws : List (String × ℚ)) (d : String) :
    scoreAt d (docScores rs ws)
      = if touchedB d rs ws then some (combinedSpec rs ws d) else none := by
  rw [docScores, scoreAt_docScoresFrom]
  simp [scoreAt_nil]

theorem combinedSpec_filter (rs : List (String × List ROutput))
    (ws : List (String × ℚ)) (M d : String) (h : lookupA M ws = some 0) :
    combinedSpec rs ws d = combinedSpec (rs.filter fun p => ¬(p.1 = M)) ws d := by
  induction rs with
  | nil => rfl
  | cons p t ih =>
    obtain ⟨m, entries⟩ := p
    by_cases hm : m = M
    · subst hm
      rw [combinedSpec_cons, h, ih]
      simp [List.filter_cons]
    · rw [combinedSpec_cons, ih]
      rw [show ((m, entries) :: t).filter (fun p => ¬(p.1 = M))
          = (m, entries) :: t.filter (fun p => ¬(p.1 = M)) by
        simp [List.filter_cons, hm]]
      rw [combinedSpec_cons]

theorem touchedB_filter_imp (rs : List (String × List ROutput))
    (ws : List (String × ℚ)) (M d : String)
    (h : touchedB d (rs.filter fun p => ¬(p.1 = M)) ws = true) :
    touchedB d rs ws = true := by
  rw [touchedB, List.any_eq_true] at h ⊢
  obtain ⟨p, hp, hprop⟩ := h
  exact ⟨p, List.mem_of_mem_filter hp, hprop⟩

end DocumentRanker

/-- Claim C3, amended: in merge_rankings a model M with weight 0 contributes nothing
to any combined score: every document of the reduced run (M omitted) keeps
exactly its combined score in the full run, each document gaining a score only
from the models that returned it (the combinedSpec sum); however the outputs
are not equivalent, because a document returned only by the weight-0 model
still receives a doc_scores entry, with combined score 0, instead of being
dropped.  Documents returned by any subset of weighted models are included. -/
theorem merge_weight_zero_amended (rs : List (String × List DocumentRanker.ROutput))
    (ws : List (String × ℚ)) (M d : String) (h : lookupA M ws = some 0) :
    (∀ v, DocumentRanker.scoreAt d
        (DocumentRanker.docScores (rs.filter fun p => ¬(p.1 = M)) ws) = some v →
      DocumentRanker.scoreAt d (DocumentRanker.docScores rs ws) = some v)
    ∧ (∀ v, DocumentRanker.scoreAt d (DocumentRanker.docScores rs ws) = some v →
        DocumentRanker.scoreAt d
            (DocumentRanker.docScores (rs.filter fun p => ¬(p.1 = M)) ws) = some v
          ∨ v = 0)
    ∧ ((∃ p ∈ rs, (lookupA p.1 ws).isSome = true
          ∧ d ∈ p.2.map DocumentRanker.ROutput.doc) →
        (DocumentRanker.scoreAt d (DocumentRanker.docScores rs ws)).isSome = true)
    ∧ (∀ v, DocumentRanker.scoreAt d (DocumentRanker.docScores rs ws) = some v →
        v = DocumentRanker.combinedSpec rs ws d) := by
  have hchar := DocumentRanker.scoreAt_docScores rs ws d
  have hcharF := DocumentRanker.scoreAt_docScores (rs.filter fun p => ¬(p.1 = M)) ws d
  have hspec := DocumentRanker.combinedSpec_filter rs ws M d h
  refine ⟨?_, ?_, ?_, ?_⟩
  · intro v hv
    rw [hcharF] at hv
    by_cases htf : DocumentRanker.touchedB d (rs.filter fun p => ¬(p.1 = M)) ws = true
    · rw [if_pos htf] at hv
      have htr := DocumentRanker.touchedB_filter_imp rs ws M d htf
      rw [hchar, if_pos htr, hspec]
      exact hv
    · rw [if_neg htf] at hv
      exact absurd hv (Option.some_ne_none v).symm
  · intro v hv
    rw [hchar] at hv
    by_cases ht : DocumentRanker.touchedB d rs ws = true
    · rw [if_pos ht] at hv
      by_cases htf : DocumentRanker.touchedB d (rs.filter fun p => ¬(p.1 = M)) ws = true
      · left
        rw [hcharF, if_pos htf, ← hspec]
        exact hv
      · right
        have htff : DocumentRanker.touchedB d (rs.filter fun p => ¬(p.1 = M)) ws
            = false := by
          cases hval : DocumentRanker.touchedB d (rs.filter fun p => ¬(p.1 = M)) ws
          · rfl
          · exact absurd hval htf
        have hz := DocumentRanker.combinedSpec_eq_zero_of_not_touched d
          (rs.filter fun p => ¬(p.1 = M)) ws htff
        have := hv.symm.trans (congrArg some (hspec.trans hz))
        exact Option.some.inj this.symm |>.symm
    · rw [if_neg ht] at hv
      exact absurd hv (Option.some_ne_none v).symm
  · intro hx
    obtain ⟨p, hp, hsome, hdin⟩ := hx
    have htch : DocumentRanker.touchedB d rs ws = true := by
      rw [DocumentRanker.touchedB, List.any_eq_true]
      obtain ⟨e, he, hde⟩ := List.mem_map.mp hdin
      refine ⟨p, hp, ?_⟩
      rw [Bool.and_eq_true]
      exact ⟨hsome, List.any_eq_true.mpr ⟨e, he, by simp [hde]⟩⟩
    rw [hchar, if_pos htch]
    rfl
  · intro v hv
    rw [hchar] at hv
    by_cases ht : DocumentRanker.touchedB d rs ws = true
    · rw [if_pos ht] at hv
      exact (Option.some.inj hv).symm
    · rw [if_neg ht] at hv
      exact absurd hv (Option.some_ne_none v).symm

/-- Witness for merge_weight_zero_amended: models A (weight 0) and B
(weight 1) both return document d1. -/
theorem merge_weight_zero_amended_witness :
    lookupA ("A") mrgWsW = some 0
    ∧ ((∀ v, DocumentRanker.scoreAt ("d1")
          (DocumentRanker.docScores (mrgRsW.filter fun p => ¬(p.1 = "A")) mrgWsW)
            = some v →
        DocumentRanker.scoreAt ("d1") (DocumentRanker.docScores mrgRsW mrgWsW)
          = some v)
      ∧ (∀ v, DocumentRanker.scoreAt ("d1")
            (DocumentRanker.docScores mrgRsW mrgWsW) = some v →
          DocumentRanker.scoreAt ("d1")
              (DocumentRanker.docScores (mrgRsW.filter fun p => ¬(p.1 = "A")) mrgWsW)
            = some v ∨ v = 0)
      ∧ ((∃ p ∈ mrgRsW, (lookupA p.1 mrgWsW).isSome = true
            ∧ "d1" ∈ p.2.map DocumentRanker.ROutput.doc) →
          (DocumentRanker.scoreAt ("d1")
            (DocumentRanker.docScores mrgRsW mrgWsW)).isSome = true)
      ∧ (∀ v, DocumentRanker.scoreAt ("d1")
            (DocumentRanker.docScores mrgRsW mrgWsW) = some v →
          v = DocumentRanker.combinedSpec mrgRsW mrgWsW ("d1"))) :=
  ⟨rfl, merge_weight_zero_amended mrgRsW mrgWsW ("A") ("d1") rfl⟩

/-- Claim C3, counterexample to the claim as stated: with the single model A given
weight 0 and returning only d1, the merged output still contains d1 (with
combined score 0), whereas omitting model A entirely yields the empty merged
output, so the two are not equivalent. -/
theorem merge_weight_zero_counterexample :
    DocumentRanker.merge_rankings mrgRs mrgWs
      = [⟨1, "d1", 0, [("A", 1)], "Hybrid"⟩]
    ∧ DocumentRanker.merge_rankings ([]) mrgWs = []
    ∧ DocumentRanker.merge_rankings mrgRs mrgWs
      ≠ DocumentRanker.merge_rankings ([]) mrgWs := by
  have h1 : DocumentRanker.merge_rankings mrgRs mrgWs
      = [⟨1, "d1", 0, [("A", 1)], "Hybrid"⟩] := by
    norm_num [DocumentRanker.merge_rankings, DocumentRanker.docScores,
      DocumentRanker.docScoresFrom, DocumentRanker.addEntries, DocumentRanker.upsert,
      DocumentRanker.setA, mrgRs, mrgWs, lookupA, List.insertionSort,
      List.orderedInsert, List.enum, List.enumFrom]
  have h2 : DocumentRanker.merge_rankings ([]) mrgWs = [] := rfl
  exact ⟨h1, h2, by rw [h1, h2]; simp⟩

theorem getD_take_of_lt {α : Type} (l : List α) (d : α) (i k : ℕ) (h : i < k) :
    (l.take k).getD i d = l.getD i d := by
  rcases lt_or_le i l.length with hl | hl
  · have h1 : i < (l.take k).length := by
      rw [List.length_take]
      omega
    rw [List.getD_eq_getElem _ _ h1, List.getD_eq_getElem _ _ hl]
    exact List.getElem_take l
  · have h2 : (l.take k).length ≤ i := by
      rw [List.length_take]
      omega
    rw [List.getD_eq_default _ _ h2, List.getD_eq_default _ _ hl]

/-- Claim C10, counterexample to the claim as stated: with the duplicated retrieved
list [a, a], relevant set containing a and k = 3, precision_at_k counts each
occurrence and returns 2/3, while the set-intersection formula of the claim
gives cardinality 1, so 1/3. -/
theorem precision_duplicate_counterexample :
    EvaluationMetrics.precision_at_k (["a", "a"]) ({"a"} : Finset String) 3 = 2/3
    ∧ ((((["a", "a"] : List String).toFinset ∩ ({"a"} : Finset String)).card : ℚ) / 3
        = 1/3)
    ∧ EvaluationMetrics.precision_at_k (["a", "a"]) ({"a"} : Finset String) 3
      ≠ (((["a", "a"] : List String).toFinset ∩ ({"a"} : Finset String)).card : ℚ)
          / 3 := by
  have h1 : EvaluationMetrics.precision_at_k (["a", "a"]) ({"a"} : Finset String) 3
      = 2/3 := by
    rw [EvaluationMetrics.precision_at_k, if_neg (by simp)]
    rw [show (((["a", "a"] : List String).take 3).filter
        fun d => d ∈ ({"a"} : Finset String)).length = 2 from by decide]
    norm_num
  have h2 : ((((["a", "a"] : List String).toFinset
      ∩ ({"a"} : Finset String)).card : ℚ) / 3 = 1/3) := by
    rw [show ((["a", "a"] : List String).toFinset ∩ ({"a"} : Finset String)).card
        = 1 from by decide]
    norm_num
  exact ⟨h1, h2, by rw [h1, h2]; norm_num⟩

/-- Claim C10, amended: precision_at_k always divides by k.  For a non-empty
retrieved list of length m < k the numerator is the number of positions whose
identifier is relevant (each occurrence counted, agreeing with the
set-intersection cardinality only for duplicate-free lists), so the value is
m / k, strictly below 1, even when every retrieved identifier is relevant. -/
theorem precision_denominator_amended (retrieved : List String)
    (relevant : Finset String) (k : ℕ) (h1 : retrieved ≠ [])
    (h2 : retrieved.length < k) :
    EvaluationMetrics.precision_at_k retrieved relevant k
        = ((retrieved.filter fun d => d ∈ relevant).length : ℚ) / k
    ∧ (retrieved.Nodup →
        ((retrieved.filter fun d => d ∈ relevant).length : ℚ)
          = ((retrieved.toFinset ∩ relevant).card : ℚ))
    ∧ ((∀ d ∈ retrieved, d ∈ relevant) →
        EvaluationMetrics.precision_at_k retrieved relevant k
            = (retrieved.length : ℚ) / k
          ∧ EvaluationMetrics.precision_at_k retrieved relevant k < 1) := by
  have hk : ¬(retrieved = [] ∨ k = 0) := by
    push_neg
    exact ⟨h1, by omega⟩
  have htake : retrieved.take k = retrieved := List.take_of_length_le (le_of_lt h2)
  have hmain : EvaluationMetrics.precision_at_k retrieved relevant k
      = ((retrieved.filter fun d => d ∈ relevant).length : ℚ) / k := by
    rw [EvaluationMetrics.precision_at_k, if_neg hk, htake]
  refine ⟨hmain, ?_, ?_⟩
  · intro hnd
    rw [show retrieved.toFinset ∩ relevant
        = (retrieved.filter fun d => d ∈ relevant).toFinset from by
      ext x
      simp [List.mem_filter, and_comm]]
    rw [List.toFinset_card_of_nodup (hnd.filter _)]
  · intro hall
    have hfil : retrieved.filter (fun d => d ∈ relevant) = retrieved := by
      apply List.filter_eq_self.mpr
      intro a ha
      simpa using hall a ha
    have hlen : EvaluationMetrics.precision_at_k retrieved relevant k
        = (retrieved.length : ℚ) / k := by
      rw [hmain, hfil]
    refine ⟨hlen, ?_⟩
    rw [hlen, div_lt_one (by exact_mod_cast Nat.pos_of_ne_zero (by omega))]
    exact_mod_cast h2

/-- Witness for precision_denominator_amended at the fully relevant
two-element retrieved list and k = 3. -/
theorem precision_denominator_amended_witness :
    ((["a", "b"] : List String) ≠ [] ∧ (["a", "b"] : List String).length < 3)
    ∧ (EvaluationMetrics.precision_at_k (["a", "b"]) ({"a", "b"} : Finset String) 3
          = (((["a", "b"] : List String).filter
              fun d => d ∈ ({"a", "b"} : Finset String)).length : ℚ) / 3
      ∧ ((["a", "b"] : List String).Nodup →
          ((((["a", "b"] : List String).filter
              fun d => d ∈ ({"a", "b"} : Finset String)).length : ℚ)
            = (((["a", "b"] : List String).toFinset
                ∩ ({"a", "b"} : Finset String)).card : ℚ)))
      ∧ ((∀ d ∈ (["a", "b"] : List String), d ∈ ({"a", "b"} : Finset String)) →
          EvaluationMetrics.precision_at_k (["a", "b"]) ({"a", "b"} : Finset String) 3
              = (((["a", "b"] : List String).length : ℚ)) / 3
            ∧ EvaluationMetrics.precision_at_k (["a", "b"])
                ({"a", "b"} : Finset String) 3 < 1)) :=
  ⟨⟨by decide, by decide⟩,
    precision_denominator_amended (["a", "b"]) ({"a", "b"}) 3 (by decide) (by decide)⟩

namespace SystemEvaluator

theorem loadRows_eq : ∀ (rows : List LabelRow) (st : List (String × Finset String)),
    loadRows st rows = (rows.takeWhile rowOk).foldl applyRow st := by
  intro rows
  induction rows with
  | nil => intro st; rfl
  | cons r t ih =>
    intro st
    by_cases h : rowOk r = true
    · rw [show loadRows st (r :: t) = loadRows (applyRow st r) t by
        simp [loadRows, h]]
      rw [ih, List.takeWhile_cons, if_pos h]
      rfl
    · have hf : rowOk r = false := by
        cases hv : rowOk r
        · rfl
        · exact absurd hv h
      rw [show loadRows st (r :: t) = st by simp [loadRows, hf]]
      rw [List.takeWhile_cons, if_neg (by simp [hf])]
      rfl

end SystemEvaluator

/-- Claim C7, amended: _load_labels does not isolate errors per row.  The try/except
wraps the whole row loop, so the mapping it builds is exactly the one obtained
from the longest well-formed prefix of the file: rows before the first
missing/malformed row are all loaded, and every row after it (well-formed or
not) is dropped. -/
theorem load_labels_stops_at_first_bad_row (rows : List SystemEvaluator.LabelRow) :
    SystemEvaluator.load_labels rows
      = SystemEvaluator.loadAllRows (rows.takeWhile SystemEvaluator.rowOk) := by
  rw [SystemEvaluator.load_labels, SystemEvaluator.loadRows_eq,
    SystemEvaluator.loadAllRows]

/-- Claim C7, counterexample to the claim as stated: with a well-formed row for q1,
then a malformed row (missing query field), then a well-formed yes-row for q2,
the loader returns only the q1 entry: the malformed row prevents the later
well-formed q2 row from contributing, whereas without the malformed row the q2
entry is loaded. -/
theorem load_labels_row_isolation_counterexample :
    lookupA ("q2") (SystemEvaluator.load_labels [rowGood1, rowBad, rowGood2]) = none
    ∧ SystemEvaluator.rowOk rowGood2 = true
    ∧ lookupA ("q2") (SystemEvaluator.load_labels [rowGood1, rowGood2])
        = some ({"d2"} : Finset String) := by
  refine ⟨?_, rfl, ?_⟩ <;> decide

theorem sum_enumFrom_eq {α : Type} (g : ℕ → α → ℝ) (d : α) :
    ∀ (l : List α) (s : ℕ),
    ((l.enumFrom s).map fun p => g p.1 p.2).sum
      = ((List.range l.length).map fun i => g (s + i) (l.getD i d)).sum := by
  intro l
  induction l with
  | nil => intro s; rfl
  | cons a t ih =>
    intro s
    rw [show (a :: t).enumFrom s = (s, a) :: t.enumFrom (s + 1) from rfl]
    rw [List.map_cons, List.sum_cons, ih]
    rw [show (a :: t).length = t.length + 1 from rfl, List.range_succ_eq_map]
    rw [List.map_cons, List.sum_cons, List.map_map]
    have hhead : g (s + 0) ((a :: t).getD 0 d) = g s a := by
      rw [Nat.add_zero]
      rfl
    rw [hhead]
    have htail : List.map ((fun i => g (s + i) ((a :: t).getD i d)) ∘ Nat.succ)
          (List.range t.length)
        = List.map (fun i => g (s + 1 + i) (t.getD i d)) (List.range t.length) := by
      apply List.map_congr_left
      intro i _
      show g (s + (i + 1)) ((a :: t).getD (i + 1) d) = g (s + 1 + i) (t.getD i d)
      rw [show (a :: t).getD (i + 1) d = t.getD i d from rfl,
        show s + (i + 1) = s + 1 + i from by omega]
    rw [htail]

theorem sum_enum_eq {α : Type} (g : ℕ → α → ℝ) (d : α) (l : List α) :
    (l.enum.map fun p => g p.1 p.2).sum
      = ((List.range l.length).map fun i => g i (l.getD i d)).sum := by
  rw [show l.enum = l.enumFrom 0 from rfl, sum_enumFrom_eq g d l 0]
  congr 1
  apply List.map_congr_left
  intro i _
  rw [Nat.zero_add]

theorem getD_replicate_of_lt (x d : ℝ) (n i : ℕ) (h : i < n) :
    (List.replicate n x).getD i d = x := by
  rw [List.getD_eq_getElem _ _ (by simpa using h)]
  exact List.getElem_replicate x _

theorem ndcg_code_eq_claim (retrieved : List String) (relevant : Finset String)
    (k : ℕ) :
    EvaluationMetrics.ndcg_at_k retrieved relevant k
      = EvaluationMetrics.ndcg_claim retrieved relevant k := by
  have hdcg : ((retrieved.take k).enum.map fun p =>
      (if p.2 ∈ relevant then (1 : ℝ) else 0) / Real.logb 2 ((p.1 : ℝ) + 2)).sum
      = ((List.range (min k retrieved.length)).map fun i : ℕ =>
          (if retrieved.getD i emptyStr ∈ relevant then (1 : ℝ) else 0)
            / Real.logb 2 ((i : ℝ) + 2)).sum := by
    rw [sum_enum_eq
      (fun i x => (if x ∈ relevant then (1 : ℝ) else 0) / Real.logb 2 ((i : ℝ) + 2))
      emptyStr]
    rw [List.length_take]
    congr 1
    apply List.map_congr_left
    intro i hi
    rw [getD_take_of_lt retrieved emptyStr i k (by
      have := List.mem_range.mp hi
      omega)]
  have hidcg : ((List.replicate (min k relevant.card) (1 : ℝ)).enum.map fun p =>
      p.2 / Real.logb 2 ((p.1 : ℝ) + 2)).sum
      = ((List.range (min k relevant.card)).map fun i : ℕ =>
          (1 : ℝ) / Real.logb 2 ((i : ℝ) + 2)).sum := by
    rw [sum_enum_eq (fun i x => x / Real.logb 2 ((i : ℝ) + 2)) (0 : ℝ)]
    rw [List.length_replicate]
    congr 1
    apply List.map_congr_left
    intro i hi
    rw [getD_replicate_of_lt 1 0 (min k relevant.card) i (List.mem_range.mp hi)]
  by_cases h : retrieved = [] ∨ k = 0
  · simp only [EvaluationMetrics.ndcg_at_k, EvaluationMetrics.ndcg_claim, if_pos h]
    rcases h with h | h
    · subst h
      simp
    · subst h
      simp
  · simp only [EvaluationMetrics.ndcg_at_k, EvaluationMetrics.ndcg_claim, if_neg h]
    rw [hdcg, hidcg]

/-- Claim C5: ndcg_at_k on the binary path computes exactly the claim's formula
(DCG over the first k retrieved ids with 1-based positions and log2(pos + 1)
discounts, divided by the ideal DCG of min(k, relevant-set size) ones placed
first, 0 when the ideal DCG is 0), and on retrieved = [doc1..doc4],
relevant = (doc1, doc3), k = 4 it returns (3/2) / (1 + 1/log2 3)
= 1.5 / 1.6309... which is approximately 0.919. -/
theorem ndcg_matches_spec :
    (∀ (retrieved : List String) (relevant : Finset String) (k : ℕ),
      EvaluationMetrics.ndcg_at_k retrieved relevant k
        = EvaluationMetrics.ndcg_claim retrieved relevant k)
    ∧ EvaluationMetrics.ndcg_at_k (["doc1", "doc2", "doc3", "doc4"])
        ({"doc1", "doc3"} : Finset String) 4
      = (3/2) / (1 + (Real.logb 2 3)⁻¹) := by
  refine ⟨ndcg_code_eq_claim, ?_⟩
  rw [ndcg_code_eq_claim]
  have hlogb2 : Real.logb 2 2 = 1 := Real.logb_self_eq_one (by norm_num)
  have hlogb4 : Real.logb 2 4 = 2 := by
    rw [show (4 : ℝ) = 2 ^ (2 : ℕ) by norm_num, Real.logb_pow]
    rw [hlogb2]
    norm_num
  have hlogb3 : 0 < Real.logb 2 3 := Real.logb_pos (by norm_num) (by norm_num)
  have hcard : ({"doc1", "doc3"} : Finset String).card = 2 := by decide
  simp only [EvaluationMetrics.ndcg_claim, hcard]
  rw [show min 4 (["doc1", "doc2", "doc3", "doc4"] : List String).length = 4
      from by decide]
  rw [show min 4 2 = 2 from by decide]
  rw [show List.range 4 = [0, 1, 2, 3] from by decide]
  rw [show List.range 2 = [0, 1] from by decide]
  simp only [List.map_cons, List.map_nil, List.sum_cons, List.sum_nil]
  rw [if_pos (by decide :
    (["doc1", "doc2", "doc3", "doc4"] : List String).getD 0 emptyStr
      ∈ ({"doc1", "doc3"} : Finset String))]
  rw [if_neg (by decide :
    ¬ (["doc1", "doc2", "doc3", "doc4"] : List String).getD 1 emptyStr
      ∈ ({"doc1", "doc3"} : Finset String))]
  rw [if_pos (by decide :
    (["doc1", "doc2", "doc3", "doc4"] : List String).getD 2 emptyStr
      ∈ ({"doc1", "doc3"} : Finset String))]
  rw [if_neg (by decide :
    ¬ (["doc1", "doc2", "doc3", "doc4"] : List String).getD 3 emptyStr
      ∈ ({"doc1", "doc3"} : Finset String))]
  norm_num [hlogb2, hlogb4]
  intro hcontra
  exact absurd hcontra (by positivity)

namespace SystemEvaluator

theorem collectPerQuery_eq (results : List (String × List String)) :
    ∀ labels : List (String × Finset String),
    collectPerQuery results labels
      = (labels.filter fun p => (lookupA p.1 results).isSome).map
          fun p => queryMetrics p.1 p.2 ((lookupA p.1 results).getD []) := by
  intro labels
  induction labels with
  | nil => rfl
  | cons p t ih =>
    obtain ⟨q, rel⟩ := p
    cases hq : lookupA q results with
    | none =>
      rw [show collectPerQuery results ((q, rel) :: t) = collectPerQuery results t by
        simp [collectPerQuery, hq]]
      rw [ih]
      rw [show ((q, rel) :: t).filter (fun p => (lookupA p.1 results).isSome)
          = t.filter fun p => (lookupA p.1 results).isSome from by
        simp [List.filter_cons, hq]]
    | some r =>
      rw [show collectPerQuery results ((q, rel) :: t)
          = queryMetrics q rel r :: collectPerQuery results t by
        simp [collectPerQuery, hq]]
      rw [ih]
      rw [show ((q, rel) :: t).filter (fun p => (lookupA p.1 results).isSome)
          = (q, rel) :: t.filter (fun p => (lookupA p.1 results).isSome) from by
        simp [List.filter_cons, hq]]
      rw [List.map_cons]
      rw [show (lookupA q results).getD [] = r from by rw [hq]; rfl]

theorem avgR_map_filter (f : String × Finset String → ℝ)
    (qs : List (String × Finset String)) :
    avgR (qs.map f)
      = (if qs = [] then (0 : ℝ) else (qs.map f).sum / (qs.length : ℝ)) := by
  unfold avgR
  by_cases hq : qs = []
  · simp [hq]
  · rw [if_neg (by simpa [List.isEmpty_iff] using hq), if_neg hq, List.length_map]

end SystemEvaluator

/-- Claim C6: evaluate_model computes per-query metrics exactly for the judged
queries present in the results mapping (in label order, skipping the rest),
aggregates each of the four metrics as the arithmetic mean over those queries
(0.0 when none qualify), and meets_targets holds for a metric exactly when its
mean is at least the fixed threshold: 0.6 for precision@10, 0.5 for recall@50,
0.5 for ndcg@10, 0.4 for mrr. -/
theorem evaluate_model_spec (labels : List (String × Finset String))
    (model_name : String) (results : List (String × List String)) :
    (SystemEvaluator.evaluate_model labels model_name results).per_query
        = ((labels.filter fun p => (lookupA p.1 results).isSome).map
            fun p => SystemEvaluator.queryMetrics p.1 p.2 ((lookupA p.1 results).getD []))
    ∧ (SystemEvaluator.evaluate_model labels model_name results).num_queries
        = (labels.filter fun p => (lookupA p.1 results).isSome).length
    ∧ (SystemEvaluator.evaluate_model labels model_name results).p10
        = (if (labels.filter fun p => (lookupA p.1 results).isSome) = [] then (0 : ℝ)
          else ((labels.filter fun p => (lookupA p.1 results).isSome).map
              fun p => ((EvaluationMetrics.precision_at_k
                ((lookupA p.1 results).getD []) p.2 10 : ℚ) : ℝ)).sum
            / ((labels.filter fun p => (lookupA p.1 results).isSome).length : ℝ))
    ∧ (SystemEvaluator.evaluate_model labels model_name results).r50
        = (if (labels.filter fun p => (lookupA p.1 results).isSome) = [] then (0 : ℝ)
          else ((labels.filter fun p => (lookupA p.1 results).isSome).map
              fun p => ((EvaluationMetrics.recall_at_k
                ((lookupA p.1 results).getD []) p.2 50 : ℚ) : ℝ)).sum
            / ((labels.filter fun p => (lookupA p.1 results).isSome).length : ℝ))
    ∧ (SystemEvaluator.evaluate_model labels model_name results).n10
        = (if (labels.filter fun p => (lookupA p.1 results).isSome) = [] then (0 : ℝ)
          else ((labels.filter fun p => (lookupA p.1 results).isSome).map
              fun p => EvaluationMetrics.ndcg_at_k
                ((lookupA p.1 results).getD []) p.2 10).sum
            / ((labels.filter fun p => (lookupA p.1 results).isSome).length : ℝ))
    ∧ (SystemEvaluator.evaluate_model labels model_name results).mrr
        = (if (labels.filter fun p => (lookupA p.1 results).isSome) = [] then (0 : ℝ)
          else ((labels.filter fun p => (lookupA p.1 results).isSome).map
              fun p => ((EvaluationMetrics.mean_reciprocal_rank
                ((lookupA p.1 results).getD []) p.2 : ℚ) : ℝ)).sum
            / ((labels.filter fun p => (lookupA p.1 results).isSome).length : ℝ))
    ∧ ((SystemEvaluator.evaluate_model labels model_name results).meets_p10
        ↔ (SystemEvaluator.evaluate_model labels model_name results).p10 ≥ 3/5)
    ∧ ((SystemEvaluator.evaluate_model labels model_name results).meets_r50
        ↔ (SystemEvaluator.evaluate_model labels model_name results).r50 ≥ 1/2)
    ∧ ((SystemEvaluator.evaluate_model labels model_name results).meets_n10
        ↔ (SystemEvaluator.evaluate_model labels model_name results).n10 ≥ 1/2)
    ∧ ((SystemEvaluator.evaluate_model labels model_name results).meets_mrr
        ↔ (SystemEvaluator.evaluate_model labels model_name results).mrr ≥ 2/5) := by
  have hpq : (SystemEvaluator.evaluate_model labels model_name results).per_query
      = ((labels.filter fun p => (lookupA p.1 results).isSome).map
          fun p => SystemEvaluator.queryMetrics p.1 p.2 ((lookupA p.1 results).getD [])) :=
    SystemEvaluator.collectPerQuery_eq results labels
  refine ⟨hpq, ?_, ?_, ?_, ?_, ?_, Iff.rfl, Iff.rfl, Iff.rfl, Iff.rfl⟩
  · show (SystemEvaluator.collectPerQuery results labels).length = _
    rw [SystemEvaluator.collectPerQuery_eq results labels, List.length_map]
  · show SystemEvaluator.avgR ((SystemEvaluator.collectPerQuery results labels).map
      SystemEvaluator.PerQuery.p10) = _
    rw [SystemEvaluator.collectPerQuery_eq results labels, List.map_map,
      SystemEvaluator.avgR_map_filter]
    rfl
  · show SystemEvaluator.avgR ((SystemEvaluator.collectPerQuery results labels).map
      SystemEvaluator.PerQuery.r50) = _
    rw [SystemEvaluator.collectPerQuery_eq results labels, List.map_map,
      SystemEvaluator.avgR_map_filter]
    rfl
  · show SystemEvaluator.avgR ((SystemEvaluator.collectPerQuery results labels).map
      SystemEvaluator.PerQuery.n10) = _
    rw [SystemEvaluator.collectPerQuery_eq results labels, List.map_map,
      SystemEvaluator.avgR_map_filter]
    rfl
  · show SystemEvaluator.avgR ((SystemEvaluator.collectPerQuery results labels).map
      SystemEvaluator.PerQuery.mrr) = _
    rw [SystemEvaluator.collectPerQuery_eq results labels, List.map_map,
      SystemEvaluator.avgR_map_filter]
    rfl
